import Mathlib

/-!
Verification development for the dengue-knowledge-graph reference-and-ontology
linking engine.  The definitions below are shallow embeddings of the Python
scripts `scripts/connect-dengue-symptoms.py`,
`services/bad-api/app/scripts/connect-nodes-to-ontology.py` and
`scripts/connect-non-clinical-entities.py`.  The Neo4j store is modelled as an
explicit graph value (entity rows, ontology-term rows, reference rows and a
list of typed edges); Cypher MATCH/MERGE writes become explicit state passing.
-/

namespace DengueKG

/-! ## String primitives (Python semantics) -/

/-- Python's substring test `needle in hay`, on character lists.
The empty needle is contained in everything. -/
def containsSeq (needle : List Char) : List Char → Bool
  | [] => needle.isEmpty
  | c :: t => needle.isPrefixOf (c :: t) || containsSeq needle t

/-- Python's `needle in hay` on strings. -/
def containsStr (hay needle : String) : Bool :=
  containsSeq needle.data hay.data

/-- Python's `s.split()` on character lists: split on whitespace runs and
drop empty pieces; `acc` holds the current token, reversed. -/
def pySplitChars : List Char → List Char → List String
  | [], acc => if acc.isEmpty then [] else [String.mk acc.reverse]
  | c :: rest, acc =>
    if c.isWhitespace then
      if acc.isEmpty then pySplitChars rest []
      else String.mk acc.reverse :: pySplitChars rest []
    else pySplitChars rest (c :: acc)

/-- Python's `s.split()`: whitespace-delimited tokens, no empties. -/
def pySplit (s : String) : List String := pySplitChars s.data []

/-- Python truthiness of an optional string: `not s` holds for `None` and `""`.
(A Neo4j row always carries the `name` key; a null value surfaces as `None`.) -/
def pyFalsy : Option String → Bool
  | none => true
  | some s => s.data.isEmpty

/-- ASCII lowercase of one character (the fragment of Python's `str.lower`
exercised by this repository; written as an explicit table so that it
computes in the kernel). -/
def lowerChar (c : Char) : Char :=
  match c with
  | 'A' => 'a' | 'B' => 'b' | 'C' => 'c' | 'D' => 'd' | 'E' => 'e' | 'F' => 'f'
  | 'G' => 'g' | 'H' => 'h' | 'I' => 'i' | 'J' => 'j' | 'K' => 'k' | 'L' => 'l'
  | 'M' => 'm' | 'N' => 'n' | 'O' => 'o' | 'P' => 'p' | 'Q' => 'q' | 'R' => 'r'
  | 'S' => 's' | 'T' => 't' | 'U' => 'u' | 'V' => 'v' | 'W' => 'w' | 'X' => 'x'
  | 'Y' => 'y' | 'Z' => 'z'
  | c => c

/-- Python's `s.lower()` (and Cypher's `toLower`) on ASCII data. -/
def pyLower (s : String) : String := String.mk (s.data.map lowerChar)

/-! ## `difflib.SequenceMatcher` (Ratcliff/Obershelp), as used by
`similarity_score` in `connect-nodes-to-ontology.py` lines 25-30.
Junk/autojunk heuristics are not modelled: they only affect which maximal
block is selected, and no claim depends on them. -/

/-- Length of the common run starting at the heads of two suffixes. -/
def runLen : List Char → List Char → Nat
  | a :: as, b :: bs => if a = b then runLen as bs + 1 else 0
  | _, _ => 0

/-- Length of the matching block starting at positions `i`, `j`, truncated to
the window `[·, ahi) × [·, bhi)`. -/
def blockLen (a b : List Char) (ahi bhi i j : Nat) : Nat :=
  min (runLen (a.drop i) (b.drop j)) (min (ahi - i) (bhi - j))

/-- `find_longest_match` on the window `[alo, ahi) × [blo, bhi)`:
the longest matching block, ties resolved towards the smallest `i`,
then the smallest `j` (first found wins, as in difflib without junk). -/
def findBest (a b : List Char) (alo ahi blo bhi : Nat) : Nat × Nat × Nat :=
  (List.range' alo (ahi - alo)).foldl
    (fun best i =>
      (List.range' blo (bhi - blo)).foldl
        (fun best j =>
          let k := blockLen a b ahi bhi i j
          if best.2.2 < k then (i, j, k) else best)
        best)
    (alo, blo, 0)

/-- Total size of all matching blocks (`get_matching_blocks` recursion),
with explicit fuel; fuel `(ahi - alo) + (bhi - blo)` always suffices since
every recursive call strictly shrinks the window. -/
def matchTotal : Nat → List Char → List Char → Nat → Nat → Nat → Nat → Nat
  | 0, _, _, _, _, _, _ => 0
  | fuel + 1, a, b, alo, ahi, blo, bhi =>
    let best := findBest a b alo ahi blo bhi
    if best.2.2 = 0 then 0
    else
      matchTotal fuel a b alo best.1 blo best.2.1 + best.2.2 +
        matchTotal fuel a b (best.1 + best.2.2) ahi (best.2.1 + best.2.2) bhi

/-- `SequenceMatcher(None, x, y).ratio()`: `2*M / (len(x)+len(y))`,
and `1.0` when both strings are empty (difflib's `_calculate_ratio`). -/
def ratioScore (x y : String) : ℚ :=
  let a := x.data
  let b := y.data
  let total := a.length + b.length
  if total = 0 then 1
  else (2 * (matchTotal (total + 1) a b 0 a.length 0 b.length) : ℚ) / (total : ℚ)

/-- `similarity_score(a, b)` from `connect-nodes-to-ontology.py` lines 25-30:
`None` becomes `""`, both inputs are lowercased, then the matcher ratio. -/
def similarity_score (a b : Option String) : ℚ :=
  let aStr := match a with | none => "" | some s => pyLower s
  let bStr := match b with | none => "" | some s => pyLower s
  ratioScore aStr bStr

/-- `SIMILARITY_THRESHOLD = 0.5` (line 23). -/
def SIMILARITY_THRESHOLD : ℚ := 1 / 2

/-! ### Bounds for the matcher ratio -/

theorem foldl_invariant {α β : Type _} (P : β → Prop) (f : β → α → β) :
    ∀ (l : List α) (b : β), P b → (∀ acc x, x ∈ l → P acc → P (f acc x)) →
      P (l.foldl f b) := by
  intro l
  induction l with
  | nil => intro b hb _; exact hb
  | cons h t ih =>
    intro b hb hstep
    exact ih (f b h) (hstep b h (List.mem_cons_self h t) hb)
      (fun acc x hx hacc => hstep acc x (List.mem_cons_of_mem h hx) hacc)

/-- The candidate produced by `findBest` fits inside the search window. -/
def inWindow (alo ahi blo bhi : Nat) (r : Nat × Nat × Nat) : Prop :=
  r.2.2 ≠ 0 → alo ≤ r.1 ∧ r.1 + r.2.2 ≤ ahi ∧ blo ≤ r.2.1 ∧ r.2.1 + r.2.2 ≤ bhi

theorem findBest_bounds (a b : List Char) (alo ahi blo bhi : Nat) :
    inWindow alo ahi blo bhi (findBest a b alo ahi blo bhi) := by
  unfold findBest
  apply foldl_invariant (inWindow alo ahi blo bhi)
  · intro h; exact absurd rfl h
  · intro acc i hi hacc
    have hi' : alo ≤ i ∧ i < alo + (ahi - alo) := List.mem_range'_1.mp hi
    apply foldl_invariant (inWindow alo ahi blo bhi)
    · exact hacc
    · intro acc' j hj hacc'
      have hj' : blo ≤ j ∧ j < blo + (bhi - blo) := List.mem_range'_1.mp hj
      dsimp only
      split
      · intro _
        have hk1 : blockLen a b ahi bhi i j ≤ ahi - i := by
          unfold blockLen
          exact le_trans (Nat.min_le_right _ _) (Nat.min_le_left _ _)
        have hk2 : blockLen a b ahi bhi i j ≤ bhi - j := by
          unfold blockLen
          exact le_trans (Nat.min_le_right _ _) (Nat.min_le_right _ _)
        refine ⟨hi'.1, ?_, hj'.1, ?_⟩
        · show i + blockLen a b ahi bhi i j ≤ ahi
          omega
        · show j + blockLen a b ahi bhi i j ≤ bhi
          omega
      · exact hacc'

theorem matchTotal_le (fuel : Nat) (a b : List Char) :
    ∀ alo ahi blo bhi,
      matchTotal fuel a b alo ahi blo bhi ≤ min (ahi - alo) (bhi - blo) := by
  induction fuel with
  | zero => intro alo ahi blo bhi; simp [matchTotal]
  | succ n ih =>
    intro alo ahi blo bhi
    unfold matchTotal
    by_cases hz : (findBest a b alo ahi blo bhi).2.2 = 0
    · simp [hz]
    · simp only [hz, if_neg, not_false_iff]
      obtain ⟨h1, h2, h3, h4⟩ := findBest_bounds a b alo ahi blo bhi hz
      have hl := ih alo (findBest a b alo ahi blo bhi).1 blo (findBest a b alo ahi blo bhi).2.1
      have hr := ih ((findBest a b alo ahi blo bhi).1 + (findBest a b alo ahi blo bhi).2.2) ahi
        ((findBest a b alo ahi blo bhi).2.1 + (findBest a b alo ahi blo bhi).2.2) bhi
      have hl1 := le_trans hl (Nat.min_le_left _ _)
      have hl2 := le_trans hl (Nat.min_le_right _ _)
      have hr1 := le_trans hr (Nat.min_le_left _ _)
      have hr2 := le_trans hr (Nat.min_le_right _ _)
      apply Nat.le_min.mpr
      constructor <;> omega

theorem ratioScore_nonneg (x y : String) : 0 ≤ ratioScore x y := by
  unfold ratioScore
  dsimp only
  split
  · norm_num
  · positivity

theorem ratioScore_le_one (x y : String) : ratioScore x y ≤ 1 := by
  unfold ratioScore
  dsimp only
  split
  · exact le_refl 1
  · next h =>
    have hpos : (0 : ℚ) < ((x.data.length + y.data.length : Nat) : ℚ) := by
      exact_mod_cast Nat.pos_of_ne_zero h
    rw [div_le_one (by exact_mod_cast hpos)]
    have hm := matchTotal_le (x.data.length + y.data.length + 1) x.data y.data
      0 x.data.length 0 y.data.length
    have hm1 := le_trans hm (Nat.min_le_left _ _)
    have hm2 := le_trans hm (Nat.min_le_right _ _)
    have hkey : 2 * matchTotal (x.data.length + y.data.length + 1) x.data y.data
        0 x.data.length 0 y.data.length ≤ x.data.length + y.data.length := by omega
    exact_mod_cast hkey

/-! ## Data model

Nodes are identified by their `id` (respectively `url` for references), as the
scripts themselves do when they re-match nodes for writing.  `name` is
`Option String` because the stored property may be null. -/

structure Entity where
  id : String
  name : Option String
deriving DecidableEq, Repr

structure OntTerm where
  id : String
  name : Option String
deriving DecidableEq, Repr

structure Reference where
  url : String
  title : String
deriving DecidableEq, Repr

/-- A directed typed relationship, e.g. `(s)-[:HAS_ONTOLOGY_TERM]->(ot)`. -/
structure Edge where
  src : String
  rel : String
  tgt : String
deriving DecidableEq, Repr

/-- The graph store state visible to the symptom-linking scripts. -/
structure Graph where
  symptoms : List Entity
  ontologyTerms : List OntTerm
  edges : List Edge
deriving DecidableEq, Repr

/-- Cypher `MERGE` of a single relationship: create-if-absent. -/
def mergeEdge (g : Graph) (e : Edge) : Graph :=
  if e ∈ g.edges then g else { g with edges := g.edges ++ [e] }

/-- `MERGE` applied to each row of a `MATCH` result in order. -/
def mergeAll (g : Graph) (es : List Edge) : Graph :=
  es.foldl mergeEdge g

/-- Number of stored relationships equal to `e`. -/
def countEdge (g : Graph) (e : Edge) : Nat :=
  (g.edges.filter (fun x => x = e)).length

/-! ## `connect-nodes-to-ontology.py`: `connect_symptoms_to_ontology_terms` -/

/-- Keywords of the symptom-related ontology-term pool query (lines 64-80). -/
def symptomTermKeywords : List String :=
  ["symptom", "clinical feature", "manifestation", "sign", "pain", "fever",
   "bleeding", "nausea", "vomiting", "rash", "fatigue", "headache", "dengue"]

/-- The candidate pool: ontology terms whose lowercased name contains one of
the keywords.  A term with a null name cannot satisfy Cypher `CONTAINS`. -/
def symptomPool (terms : List OntTerm) : List OntTerm :=
  terms.filter (fun t =>
    match t.name with
    | none => false
    | some nm => symptomTermKeywords.any (fun kw => containsStr (pyLower nm) kw))

/-- `direct_mapping` (lines 85-97), in dict insertion order. -/
def direct_mapping : List (String × List String) :=
  [("fever", ["fever", "pyrexia", "temperature"]),
   ("headache", ["headache", "cephalgia"]),
   ("rash", ["rash", "skin eruption", "maculopapular"]),
   ("arthralgia", ["joint pain", "arthralgia", "painful joints"]),
   ("myalgia", ["muscle pain", "myalgia"]),
   ("fatigue", ["fatigue", "tiredness", "malaise"]),
   ("nausea", ["nausea", "sick feeling"]),
   ("vomiting", ["vomiting", "emesis"]),
   ("abdominal pain", ["abdominal pain", "stomach pain", "belly pain"]),
   ("bleeding", ["bleeding", "hemorrhage", "haemorrhage", "bleed"]),
   ("petechiae", ["petechiae", "purpura", "small hemorrhage"])]

/-- The curated tier (lines 120-126): for every mapping row whose key or
synonym occurs in the lowercased symptom name, extend with the pool terms
whose name contains a synonym.  (`t.name.getD ""` is a total stand-in: pool
members always carry a non-null name, see `symptomPool`.) -/
def directMatchesFor (symptomName : String) (pool : List OntTerm) : List OntTerm :=
  direct_mapping.foldl
    (fun acc kv =>
      if containsStr symptomName kv.1 ||
          kv.2.any (fun syn => containsStr symptomName syn) then
        acc ++ pool.filter
          (fun t => kv.2.any (fun syn => containsStr (pyLower (t.name.getD "")) syn))
      else acc)
    []

/-- Tier 2 (line 138): symptom name contained in term name or vice versa. -/
def substrTier (symptomName termName : String) : Bool :=
  containsStr termName symptomName || containsStr symptomName termName

/-- Tier 3 (lines 142-148): some whitespace token of the symptom name occurs
verbatim among the term name's tokens. -/
def tokenTier (symptomName termName : String) : Bool :=
  (pySplit symptomName).any (fun kw => (pySplit termName).contains kw)

/-- Tier 4 (lines 151-154): similarity at or above the threshold. -/
def fuzzyTier (symptomName termName : String) : Bool :=
  decide (SIMILARITY_THRESHOLD ≤ similarity_score (some symptomName) (some termName))

/-- The per-candidate heuristic loop body (lines 130-154): a term with a
falsy name is skipped; otherwise the first succeeding tier accepts it. -/
def heuristicMatch (symptomName : String) (t : OntTerm) : Bool :=
  match t.name with
  | none => false
  | some nm0 =>
    if nm0.data.isEmpty then false
    else
      let termName := pyLower nm0
      if substrTier symptomName termName then true
      else if tokenTier symptomName termName then true
      else fuzzyTier symptomName termName

/-- The default term (lines 100-106): first term whose lowercased name
contains both `'clinical manifestation'` and `'dengue'`, re-fetched by id
(lines 158-164). -/
def defaultTermOf (terms : List OntTerm) : Option OntTerm :=
  match terms.find? (fun t =>
      match t.name with
      | none => false
      | some nm =>
        containsStr (pyLower nm) "clinical manifestation" &&
          containsStr (pyLower nm) "dengue") with
  | none => none
  | some t => terms.find? (fun u => u.id == t.id)

/-- The matcher for one symptom (lines 118-164): curated tier, else the
per-candidate heuristic loop, else the default term. -/
def matchedTermsFor (symptomName : String) (pool : List OntTerm)
    (dflt : Option OntTerm) : List OntTerm :=
  let direct := directMatchesFor symptomName pool
  if direct.isEmpty then
    let heur := pool.filter (heuristicMatch symptomName)
    if heur.isEmpty then
      match dflt with
      | some d => [d]
      | none => []
    else heur
  else direct

/-- The link write (lines 167-177): `MATCH (s:Symptom {id}) MATCH
(ot:OntologyTerm {id}) MERGE (s)-[:HAS_ONTOLOGY_TERM]->(ot)`.  The returned
flag is whether the query produced any row. -/
def writeSymptomLink (g : Graph) (sid tid : String) : Graph × Bool :=
  let ss := g.symptoms.filter (fun s => s.id == sid)
  let ts := g.ontologyTerms.filter (fun t => t.id == tid)
  (mergeAll g (ss.flatMap (fun s => ts.map (fun t =>
      { src := s.id, rel := "HAS_ONTOLOGY_TERM", tgt := t.id }))),
   !ss.isEmpty && !ts.isEmpty)

/-- The (symptom id, term id) pairs written by the symptom loop
(lines 112-177), in execution order. -/
def symptomLinkPairs (g : Graph) : List (String × String) :=
  let pool := symptomPool g.ontologyTerms
  let dflt := defaultTermOf g.ontologyTerms
  g.symptoms.flatMap (fun s =>
    if pyFalsy s.name then []
    else
      let nm := pyLower (s.name.getD "")
      (matchedTermsFor nm pool dflt).map (fun t => (s.id, t.id)))

/-- The write loop: each matched pair is written in order. -/
def linkLoop (l : List (String × String)) (g : Graph) : Graph :=
  l.foldl (fun g' p => (writeSymptomLink g' p.1 p.2).1) g

/-- `connect_symptoms_to_ontology_terms` as a state transformer on the
graph: all link writes of one pass. -/
def connectSymptomsRun (g : Graph) : Graph :=
  linkLoop (symptomLinkPairs g) g

/-! ## `connect-dengue-symptoms.py` -/

/-- `symptom_to_term_mappings` (lines 71-88). -/
def symptom_to_term_mappings : List (String × List String) :=
  [("Fever", ["IDODEN_0000049"]),
   ("Headache", ["IDODEN_0000049"]),
   ("Retro-orbital Pain", ["IDODEN_0000049"]),
   ("Myalgia", ["IDODEN_0000049"]),
   ("Severe Abdominal Pain", ["IDODEN_0000049", "IDODEN_0003756"]),
   ("Persistent Vomiting", ["IDODEN_0000049", "IDODEN_0003756"]),
   ("Mucosal Bleeding", ["IDODEN_0000049", "IDODEN_0003763"]),
   ("Severe Bleeding", ["IDODEN_0003763"]),
   ("Shock", ["IDODEN_0003764"])]

/-- `default_term_id` (line 91). -/
def default_term_id : String := "IDODEN_0000049"

/-- `symptom_to_term_mappings.get(symptom_name, [default_term_id])`. -/
def dengueTermIdsFor (nm : String) : List String :=
  match symptom_to_term_mappings.find? (fun p => p.1 == nm) with
  | some p => p.2
  | none => [default_term_id]

/-- `connect_symptom_to_ontology_term` (lines 25-41): `MATCH (s:Symptom
{name}) MATCH (ot:OntologyTerm {id}) MERGE ...`; returns whether the query
produced any row (`True` when both patterns matched). -/
def connectSymptomToOntologyTerm (g : Graph) (symptomName termId : String) :
    Graph × Bool :=
  let ss := g.symptoms.filter (fun s => s.name == some symptomName)
  let ts := g.ontologyTerms.filter (fun t => t.id == termId)
  (mergeAll g (ss.flatMap (fun s => ts.map (fun t =>
      { src := s.id, rel := "HAS_ONTOLOGY_TERM", tgt := t.id }))),
   !ss.isEmpty && !ts.isEmpty)

/-- `(s)-[:HAS_ONTOLOGY_TERM]->()` for a symptom node. -/
def hasOntologyLink (g : Graph) (s : Entity) : Bool :=
  g.edges.any (fun e => e.src == s.id && e.rel == "HAS_ONTOLOGY_TERM")

/-- `get_unconnected_symptoms` (lines 43-50): names of symptoms without an
outgoing `HAS_ONTOLOGY_TERM` relationship. -/
def unconnectedSymptomNames (g : Graph) : List (Option String) :=
  (g.symptoms.filter (fun s => !hasOntologyLink g s)).map (fun s => s.name)

/-- The inner loop of `main` (lines 106-108): link each mapped term id,
counting `True` results as connections made. -/
def dengueInner (nm : String) (tids : List String) (acc : Graph × Nat) :
    Graph × Nat :=
  tids.foldl
    (fun acc2 tid =>
      let r := connectSymptomToOntologyTerm acc2.1 nm tid
      (r.1, acc2.2 + if r.2 then 1 else 0))
    acc

/-- The outer loop of `main` (lines 95-108): falsy names are skipped. -/
def dengueLoop (rows : List (Option String)) (acc : Graph × Nat) : Graph × Nat :=
  rows.foldl
    (fun acc nmOpt =>
      if pyFalsy nmOpt then acc
      else dengueInner (nmOpt.getD "") (dengueTermIdsFor (nmOpt.getD "")) acc)
    acc

/-- The `main` loop of `connect-dengue-symptoms.py` (lines 93-108): fetch
unconnected symptoms once, then process every row. -/
def connectDengueRun (g : Graph) : Graph × Nat :=
  dengueLoop (unconnectedSymptomNames g) (g, 0)

/-! ## `connect-non-clinical-entities.py` -/

/-- Title keywords of `connect_climate_factors` (lines 202-227); Cypher
`CONTAINS` is case sensitive, hence both spellings. -/
def climateTitleKeywords : List String :=
  ["climate", "Climate", "temperature", "Temperature", "rainfall", "Rainfall",
   "humidity", "Humidity", "vector", "Vector", "ecology", "Ecology",
   "environment", "Environment"]

/-- `MERGE` on a bare edge list. -/
def insertEdge (es : List Edge) (e : Edge) : List Edge :=
  if e ∈ es then es else es ++ [e]

/-- `connect_climate_factors`: every `ClimateFactor` node — no name
filtering whatsoever — is linked to every reference whose title contains a
climate keyword. -/
def connectClimateFactors (climateFactors : List Entity) (refs : List Reference)
    (edges : List Edge) : List Edge :=
  climateFactors.foldl
    (fun es cf =>
      (refs.filter (fun r =>
          climateTitleKeywords.any (fun kw => containsStr r.title kw))).foldl
        (fun es2 r => insertEdge es2 { src := cf.id, rel := "HAS_REFERENCE", tgt := r.url })
        es)
    edges

/-- `get_overall_coverage` (lines 421-426): distinct nodes with at least one
outgoing `HAS_REFERENCE` relationship. -/
def nodesWithRefs (nodes : List Entity) (edges : List Edge) : List Entity :=
  nodes.filter (fun n => edges.any (fun e => e.src == n.id && e.rel == "HAS_REFERENCE"))

/-- The coverage formula used both for the overall row (line 428) and per
node type (line 454): `(with_refs / total * 100) if total > 0 else 0`,
modelled over exact rationals. -/
def coveragePct (total withRefs : Nat) : ℚ :=
  if 0 < total then (withRefs : ℚ) / (total : ℚ) * 100 else 0

/-! ## `connect-nodes-to-ontology.py`: `main` (lines 552-596)

The six category connectors run sequentially inside one `try`; an exception
anywhere jumps to the single `except`, which logs and returns 1.  A step is
modelled as a fallible graph transformer returning its connection count; the
result is (exit code, final store state, summary total if one was logged). -/

def CategoryStep : Type := Graph → Except String (Graph × Nat)

def connectNodesMain (s1 s2 s3 s4 s5 s6 : CategoryStep) (g : Graph) :
    Nat × Graph × Option Nat :=
  match s1 g with
  | .error _ => (1, g, none)
  | .ok (g1, c1) =>
    match s2 g1 with
    | .error _ => (1, g1, none)
    | .ok (g2, c2) =>
      match s3 g2 with
      | .error _ => (1, g2, none)
      | .ok (g3, c3) =>
        match s4 g3 with
        | .error _ => (1, g3, none)
        | .ok (g4, c4) =>
          match s5 g4 with
          | .error _ => (1, g4, none)
          | .ok (g5, c5) =>
            match s6 g5 with
            | .error _ => (1, g5, none)
            | .ok (g6, c6) => (0, g6, some (c1 + c2 + c3 + c4 + c5 + c6))

/-! ## Lemmas: single merges -/

theorem mergeEdge_symptoms (g : Graph) (e : Edge) :
    (mergeEdge g e).symptoms = g.symptoms := by
  unfold mergeEdge; split <;> rfl

theorem mergeEdge_ontologyTerms (g : Graph) (e : Edge) :
    (mergeEdge g e).ontologyTerms = g.ontologyTerms := by
  unfold mergeEdge; split <;> rfl

theorem mem_mergeEdge_self (g : Graph) (e : Edge) : e ∈ (mergeEdge g e).edges := by
  unfold mergeEdge
  split
  · assumption
  · simp

theorem mem_mergeEdge_of_mem (g : Graph) (e x : Edge) (hx : x ∈ g.edges) :
    x ∈ (mergeEdge g e).edges := by
  unfold mergeEdge
  split
  · exact hx
  · simp [hx]

theorem mergeEdge_of_mem (g : Graph) (e : Edge) (h : e ∈ g.edges) :
    mergeEdge g e = g := by
  unfold mergeEdge
  simp [h]

theorem mem_mergeEdge_elim (g : Graph) (e x : Edge)
    (hx : x ∈ (mergeEdge g e).edges) : x ∈ g.edges ∨ x = e := by
  revert hx
  unfold mergeEdge
  split
  · exact fun hx => Or.inl hx
  · intro hx
    rcases List.mem_append.mp hx with h | h
    · exact Or.inl h
    · exact Or.inr (List.mem_singleton.mp h)

theorem countEdge_eq_zero_iff (g : Graph) (e : Edge) :
    countEdge g e = 0 ↔ e ∉ g.edges := by
  unfold countEdge
  rw [List.length_eq_zero, List.filter_eq_nil_iff]
  constructor
  · intro h hmem
    exact absurd (by simp : decide (e = e) = true) (h e hmem)
  · intro h x hx
    simp only [decide_eq_true_eq]
    intro heq
    exact h (heq ▸ hx)

theorem countEdge_mergeEdge_new (g : Graph) (e : Edge) (h : e ∉ g.edges) :
    countEdge (mergeEdge g e) e = countEdge g e + 1 := by
  unfold mergeEdge countEdge
  rw [if_neg h, List.filter_append]
  simp

/-! ## Lemmas: merging a list of rows -/

theorem mergeAll_nil (g : Graph) : mergeAll g [] = g := rfl

theorem mergeAll_cons (g : Graph) (e : Edge) (t : List Edge) :
    mergeAll g (e :: t) = mergeAll (mergeEdge g e) t := rfl

theorem mergeAll_symptoms : ∀ (es : List Edge) (g : Graph),
    (mergeAll g es).symptoms = g.symptoms := by
  intro es
  induction es with
  | nil => intro g; rfl
  | cons e t ih =>
    intro g
    rw [mergeAll_cons, ih, mergeEdge_symptoms]

theorem mergeAll_ontologyTerms : ∀ (es : List Edge) (g : Graph),
    (mergeAll g es).ontologyTerms = g.ontologyTerms := by
  intro es
  induction es with
  | nil => intro g; rfl
  | cons e t ih =>
    intro g
    rw [mergeAll_cons, ih, mergeEdge_ontologyTerms]

theorem mem_mergeAll_of_mem : ∀ (es : List Edge) (g : Graph) (x : Edge),
    x ∈ g.edges → x ∈ (mergeAll g es).edges := by
  intro es
  induction es with
  | nil => intro g x hx; exact hx
  | cons e t ih =>
    intro g x hx
    rw [mergeAll_cons]
    exact ih _ x (mem_mergeEdge_of_mem g e x hx)

theorem mem_mergeAll_self : ∀ (es : List Edge) (g : Graph) (e : Edge),
    e ∈ es → e ∈ (mergeAll g es).edges := by
  intro es
  induction es with
  | nil => intro g e he; cases he
  | cons e0 t ih =>
    intro g e he
    rw [mergeAll_cons]
    rcases List.mem_cons.mp he with h | h
    · subst h
      exact mem_mergeAll_of_mem t _ e (mem_mergeEdge_self g e)
    · exact ih _ e h

theorem mem_mergeAll_elim : ∀ (es : List Edge) (g : Graph) (x : Edge),
    x ∈ (mergeAll g es).edges → x ∈ g.edges ∨ x ∈ es := by
  intro es
  induction es with
  | nil => intro g x hx; exact Or.inl hx
  | cons e t ih =>
    intro g x hx
    rw [mergeAll_cons] at hx
    rcases ih _ x hx with h | h
    · rcases mem_mergeEdge_elim g e x h with h' | h'
      · exact Or.inl h'
      · exact Or.inr (h' ▸ List.mem_cons_self e t)
    · exact Or.inr (List.mem_cons_of_mem e h)

theorem mergeAll_of_all_mem : ∀ (es : List Edge) (g : Graph),
    (∀ e ∈ es, e ∈ g.edges) → mergeAll g es = g := by
  intro es
  induction es with
  | nil => intro g _; rfl
  | cons e t ih =>
    intro g h
    rw [mergeAll_cons, mergeEdge_of_mem g e (h e (List.mem_cons_self e t))]
    exact ih g (fun x hx => h x (List.mem_cons_of_mem e hx))

/-! ## Lemmas: the by-id link write -/

theorem writeSymptomLink_fst (g : Graph) (sid tid : String) :
    (writeSymptomLink g sid tid).1 =
      mergeAll g ((g.symptoms.filter (fun s => s.id == sid)).flatMap
        (fun s => (g.ontologyTerms.filter (fun t => t.id == tid)).map
          (fun t => { src := s.id, rel := "HAS_ONTOLOGY_TERM", tgt := t.id }))) := rfl

theorem writeSymptomLink_symptoms (g : Graph) (sid tid : String) :
    ((writeSymptomLink g sid tid).1).symptoms = g.symptoms := by
  rw [writeSymptomLink_fst]
  exact mergeAll_symptoms _ _

theorem writeSymptomLink_ontologyTerms (g : Graph) (sid tid : String) :
    ((writeSymptomLink g sid tid).1).ontologyTerms = g.ontologyTerms := by
  rw [writeSymptomLink_fst]
  exact mergeAll_ontologyTerms _ _

theorem mem_writeSymptomLink_of_mem (g : Graph) (sid tid : String) (x : Edge)
    (hx : x ∈ g.edges) : x ∈ ((writeSymptomLink g sid tid).1).edges := by
  rw [writeSymptomLink_fst]
  exact mem_mergeAll_of_mem _ _ _ hx

theorem writeSymptomLink_edge_shape (g : Graph) (sid tid : String) (x : Edge)
    (hx : x ∈ ((writeSymptomLink g sid tid).1).edges) :
    x ∈ g.edges ∨ x = { src := sid, rel := "HAS_ONTOLOGY_TERM", tgt := tid } := by
  rw [writeSymptomLink_fst] at hx
  rcases mem_mergeAll_elim _ _ _ hx with h | h
  · exact Or.inl h
  · right
    rcases List.mem_flatMap.mp h with ⟨s, hs, hmap⟩
    rcases List.mem_map.mp hmap with ⟨t, ht, rfl⟩
    have hsid : s.id = sid := eq_of_beq (List.mem_filter.mp hs).2
    have htid : t.id = tid := eq_of_beq (List.mem_filter.mp ht).2
    rw [hsid, htid]

theorem writeSymptomLink_creates (g : Graph) (sid tid : String) (s : Entity)
    (t : OntTerm) (hs : s ∈ g.symptoms) (hsid : s.id = sid)
    (ht : t ∈ g.ontologyTerms) (htid : t.id = tid) :
    ({ src := sid, rel := "HAS_ONTOLOGY_TERM", tgt := tid } : Edge) ∈
      ((writeSymptomLink g sid tid).1).edges := by
  rw [writeSymptomLink_fst]
  apply mem_mergeAll_self
  apply List.mem_flatMap.mpr
  refine ⟨s, List.mem_filter.mpr ⟨hs, by simp [hsid]⟩, ?_⟩
  apply List.mem_map.mpr
  exact ⟨t, List.mem_filter.mpr ⟨ht, by simp [htid]⟩, by rw [hsid, htid]⟩

theorem writeSymptomLink_identity (g : Graph) (sid tid : String)
    (h : ({ src := sid, rel := "HAS_ONTOLOGY_TERM", tgt := tid } : Edge) ∈ g.edges ∨
         g.symptoms.filter (fun s => s.id == sid) = [] ∨
         g.ontologyTerms.filter (fun t => t.id == tid) = []) :
    (writeSymptomLink g sid tid).1 = g := by
  rw [writeSymptomLink_fst]
  apply mergeAll_of_all_mem
  intro e he
  rcases List.mem_flatMap.mp he with ⟨s, hs, hmap⟩
  rcases List.mem_map.mp hmap with ⟨t, ht, rfl⟩
  rcases h with h | h | h
  · have hsid : s.id = sid := eq_of_beq (List.mem_filter.mp hs).2
    have htid : t.id = tid := eq_of_beq (List.mem_filter.mp ht).2
    rw [hsid, htid]
    exact h
  · rw [h] at hs
    cases hs
  · rw [h] at ht
    cases ht

/-! ## Lemmas: the write loop -/

theorem linkLoop_nil (g : Graph) : linkLoop [] g = g := rfl

theorem linkLoop_cons (p : String × String) (l : List (String × String)) (g : Graph) :
    linkLoop (p :: l) g = linkLoop l ((writeSymptomLink g p.1 p.2).1) := rfl

theorem linkLoop_symptoms : ∀ (l : List (String × String)) (g : Graph),
    (linkLoop l g).symptoms = g.symptoms := by
  intro l
  induction l with
  | nil => intro g; rfl
  | cons p t ih =>
    intro g
    rw [linkLoop_cons, ih, writeSymptomLink_symptoms]

theorem linkLoop_ontologyTerms : ∀ (l : List (String × String)) (g : Graph),
    (linkLoop l g).ontologyTerms = g.ontologyTerms := by
  intro l
  induction l with
  | nil => intro g; rfl
  | cons p t ih =>
    intro g
    rw [linkLoop_cons, ih, writeSymptomLink_ontologyTerms]

theorem mem_linkLoop_of_mem : ∀ (l : List (String × String)) (g : Graph) (x : Edge),
    x ∈ g.edges → x ∈ (linkLoop l g).edges := by
  intro l
  induction l with
  | nil => intro g x hx; exact hx
  | cons p t ih =>
    intro g x hx
    rw [linkLoop_cons]
    exact ih _ x (mem_writeSymptomLink_of_mem g p.1 p.2 x hx)

theorem linkLoop_edge_shape : ∀ (l : List (String × String)) (g : Graph) (x : Edge),
    x ∈ (linkLoop l g).edges →
      x ∈ g.edges ∨ ∃ p ∈ l, x = { src := p.1, rel := "HAS_ONTOLOGY_TERM", tgt := p.2 } := by
  intro l
  induction l with
  | nil => intro g x hx; exact Or.inl hx
  | cons p t ih =>
    intro g x hx
    rw [linkLoop_cons] at hx
    rcases ih _ x hx with h | ⟨q, hq, hxq⟩
    · rcases writeSymptomLink_edge_shape g p.1 p.2 x h with h' | h'
      · exact Or.inl h'
      · exact Or.inr ⟨p, List.mem_cons_self p t, h'⟩
    · exact Or.inr ⟨q, List.mem_cons_of_mem p hq, hxq⟩

theorem linkLoop_creates : ∀ (l : List (String × String)) (g : Graph)
    (p : String × String), p ∈ l →
    (∃ s ∈ g.symptoms, s.id = p.1) → (∃ t ∈ g.ontologyTerms, t.id = p.2) →
    ({ src := p.1, rel := "HAS_ONTOLOGY_TERM", tgt := p.2 } : Edge) ∈
      (linkLoop l g).edges := by
  intro l
  induction l with
  | nil => intro g p hp; cases hp
  | cons q t ih =>
    intro g p hp hs ht
    rw [linkLoop_cons]
    rcases List.mem_cons.mp hp with h | h
    · subst h
      rcases hs with ⟨s, hsm, hsid⟩
      rcases ht with ⟨tm, htm, htid⟩
      exact mem_linkLoop_of_mem t _ _
        (writeSymptomLink_creates g p.1 p.2 s tm hsm hsid htm htid)
    · apply ih _ p h
      · rw [writeSymptomLink_symptoms]
        exact hs
      · rw [writeSymptomLink_ontologyTerms]
        exact ht

theorem linkLoop_id_of_steps : ∀ (l : List (String × String)) (g : Graph),
    (∀ p ∈ l, (writeSymptomLink g p.1 p.2).1 = g) → linkLoop l g = g := by
  intro l
  induction l with
  | nil => intro g _; rfl
  | cons p t ih =>
    intro g h
    rw [linkLoop_cons, h p (List.mem_cons_self p t)]
    exact ih g (fun q hq => h q (List.mem_cons_of_mem p hq))

/-! ## Lemmas: the matcher output -/

theorem directMatchesFor_subset (nm : String) (pool : List OntTerm) :
    ∀ t ∈ directMatchesFor nm pool, t ∈ pool := by
  unfold directMatchesFor
  apply foldl_invariant (fun acc => ∀ t ∈ acc, t ∈ pool)
  · intro t ht; cases ht
  · intro acc kv _ hacc
    dsimp only
    split
    · intro t ht
      rcases List.mem_append.mp ht with h | h
      · exact hacc t h
      · exact (List.mem_filter.mp h).1
    · exact hacc

theorem matchedTermsFor_mem (nm : String) (pool : List OntTerm)
    (dflt : Option OntTerm) (t : OntTerm)
    (ht : t ∈ matchedTermsFor nm pool dflt) : t ∈ pool ∨ dflt = some t := by
  unfold matchedTermsFor at ht
  dsimp only at ht
  split at ht
  · split at ht
    · revert ht
      match dflt with
      | some d =>
        intro ht
        rw [List.mem_singleton.mp ht]
        exact Or.inr rfl
      | none => intro ht; cases ht
    · exact Or.inl (List.mem_filter.mp ht).1
  · exact Or.inl (directMatchesFor_subset nm pool t ht)

theorem defaultTermOf_mem (terms : List OntTerm) (d : OntTerm)
    (h : defaultTermOf terms = some d) : d ∈ terms := by
  unfold defaultTermOf at h
  split at h
  · cases h
  · exact List.mem_of_find?_eq_some h

theorem symptomPool_subset (terms : List OntTerm) :
    ∀ t ∈ symptomPool terms, t ∈ terms :=
  fun _ ht => (List.mem_filter.mp ht).1

/-! ## Lemmas: the matched pairs and the full pass -/

theorem symptomLinkPairs_congr (g h : Graph)
    (hs : g.symptoms = h.symptoms) (ht : g.ontologyTerms = h.ontologyTerms) :
    symptomLinkPairs g = symptomLinkPairs h := by
  unfold symptomLinkPairs
  rw [hs, ht]

theorem symptomLinkPairs_mem (g : Graph) (p : String × String)
    (hp : p ∈ symptomLinkPairs g) :
    ∃ s ∈ g.symptoms, pyFalsy s.name = false ∧ s.id = p.1 ∧
      ∃ t ∈ matchedTermsFor (pyLower (s.name.getD ""))
        (symptomPool g.ontologyTerms) (defaultTermOf g.ontologyTerms),
        t.id = p.2 := by
  unfold symptomLinkPairs at hp
  rcases List.mem_flatMap.mp hp with ⟨s, hs, hmem⟩
  revert hmem
  cases hfb : pyFalsy s.name with
  | true => intro hmem; rw [if_pos rfl] at hmem; cases hmem
  | false =>
    intro hmem
    rw [if_neg (by simp)] at hmem
    rcases List.mem_map.mp hmem with ⟨t, htm, rfl⟩
    exact ⟨s, hs, hfb, rfl, t, htm, rfl⟩

theorem connectSymptomsRun_symptoms (g : Graph) :
    (connectSymptomsRun g).symptoms = g.symptoms :=
  linkLoop_symptoms _ _

theorem connectSymptomsRun_ontologyTerms (g : Graph) :
    (connectSymptomsRun g).ontologyTerms = g.ontologyTerms :=
  linkLoop_ontologyTerms _ _

theorem mem_connectSymptomsRun_of_mem (g : Graph) (x : Edge) (hx : x ∈ g.edges) :
    x ∈ (connectSymptomsRun g).edges :=
  mem_linkLoop_of_mem _ _ _ hx

theorem connectSymptomsRun_idem (g : Graph) :
    connectSymptomsRun (connectSymptomsRun g) = connectSymptomsRun g := by
  have hpairs : symptomLinkPairs (connectSymptomsRun g) = symptomLinkPairs g :=
    symptomLinkPairs_congr _ _ (connectSymptomsRun_symptoms g)
      (connectSymptomsRun_ontologyTerms g)
  show linkLoop (symptomLinkPairs (connectSymptomsRun g)) (connectSymptomsRun g) =
    connectSymptomsRun g
  rw [hpairs]
  apply linkLoop_id_of_steps
  intro p hp
  apply writeSymptomLink_identity
  by_cases hs : ∃ s ∈ g.symptoms, s.id = p.1
  · by_cases ht : ∃ t ∈ g.ontologyTerms, t.id = p.2
    · exact Or.inl (linkLoop_creates _ _ p hp hs ht)
    · right; right
      rw [connectSymptomsRun_ontologyTerms]
      apply List.filter_eq_nil_iff.mpr
      intro t htm
      simp only [beq_iff_eq, Bool.not_eq_true]
      intro heq
      exact ht ⟨t, htm, heq⟩
  · right; left
    rw [connectSymptomsRun_symptoms]
    apply List.filter_eq_nil_iff.mpr
    intro s hsm
    simp only [beq_iff_eq, Bool.not_eq_true]
    intro heq
    exact hs ⟨s, hsm, heq⟩

/-! ## Lemmas: the by-name link write of `connect-dengue-symptoms.py` -/

theorem connectSTOT_fst (g : Graph) (nm tid : String) :
    (connectSymptomToOntologyTerm g nm tid).1 =
      mergeAll g ((g.symptoms.filter (fun s => s.name == some nm)).flatMap
        (fun s => (g.ontologyTerms.filter (fun t => t.id == tid)).map
          (fun t => { src := s.id, rel := "HAS_ONTOLOGY_TERM", tgt := t.id }))) := rfl

theorem connectSTOT_symptoms (g : Graph) (nm tid : String) :
    ((connectSymptomToOntologyTerm g nm tid).1).symptoms = g.symptoms := by
  rw [connectSTOT_fst]
  exact mergeAll_symptoms _ _

theorem connectSTOT_ontologyTerms (g : Graph) (nm tid : String) :
    ((connectSymptomToOntologyTerm g nm tid).1).ontologyTerms = g.ontologyTerms := by
  rw [connectSTOT_fst]
  exact mergeAll_ontologyTerms _ _

theorem mem_connectSTOT_of_mem (g : Graph) (nm tid : String) (x : Edge)
    (hx : x ∈ g.edges) : x ∈ ((connectSymptomToOntologyTerm g nm tid).1).edges := by
  rw [connectSTOT_fst]
  exact mem_mergeAll_of_mem _ _ _ hx

theorem connectSTOT_edge_shape (g : Graph) (nm tid : String) (x : Edge)
    (hx : x ∈ ((connectSymptomToOntologyTerm g nm tid).1).edges) :
    x ∈ g.edges ∨ ∃ s ∈ g.symptoms, s.name = some nm ∧
      x = { src := s.id, rel := "HAS_ONTOLOGY_TERM", tgt := tid } := by
  rw [connectSTOT_fst] at hx
  rcases mem_mergeAll_elim _ _ _ hx with h | h
  · exact Or.inl h
  · right
    rcases List.mem_flatMap.mp h with ⟨s, hs, hmap⟩
    rcases List.mem_map.mp hmap with ⟨t, ht, rfl⟩
    have hnm : s.name = some nm := eq_of_beq (List.mem_filter.mp hs).2
    have htid : t.id = tid := eq_of_beq (List.mem_filter.mp ht).2
    exact ⟨s, (List.mem_filter.mp hs).1, hnm, by rw [htid]⟩

theorem connectSTOT_creates (g : Graph) (nm tid : String) (s : Entity) (t : OntTerm)
    (hs : s ∈ g.symptoms) (hnm : s.name = some nm)
    (ht : t ∈ g.ontologyTerms) (htid : t.id = tid) :
    ({ src := s.id, rel := "HAS_ONTOLOGY_TERM", tgt := tid } : Edge) ∈
      ((connectSymptomToOntologyTerm g nm tid).1).edges := by
  rw [connectSTOT_fst]
  apply mem_mergeAll_self
  apply List.mem_flatMap.mpr
  refine ⟨s, List.mem_filter.mpr ⟨hs, by simp [hnm]⟩, ?_⟩
  apply List.mem_map.mpr
  exact ⟨t, List.mem_filter.mpr ⟨ht, by simp [htid]⟩, by rw [htid]⟩

theorem connectSTOT_no_term (g : Graph) (nm tid : String)
    (h : g.ontologyTerms.filter (fun t => t.id == tid) = []) :
    connectSymptomToOntologyTerm g nm tid = (g, false) := by
  unfold connectSymptomToOntologyTerm
  dsimp only
  rw [h]
  have hfm : (g.symptoms.filter (fun s => s.name == some nm)).flatMap
      (fun s => ([] : List OntTerm).map
        (fun t => ({ src := s.id, rel := "HAS_ONTOLOGY_TERM", tgt := t.id } : Edge))) = [] := by
    simp
  rw [hfm, mergeAll_nil]
  simp

/-! ## Lemmas: the loops of `connect-dengue-symptoms.py` -/

theorem dengueInner_nil (nm : String) (acc : Graph × Nat) :
    dengueInner nm [] acc = acc := rfl

theorem dengueInner_cons (nm tid : String) (tids : List String) (acc : Graph × Nat) :
    dengueInner nm (tid :: tids) acc =
      dengueInner nm tids
        ((connectSymptomToOntologyTerm acc.1 nm tid).1,
         acc.2 + if (connectSymptomToOntologyTerm acc.1 nm tid).2 then 1 else 0) := rfl

theorem dengueInner_symptoms (nm : String) : ∀ (tids : List String) (acc : Graph × Nat),
    ((dengueInner nm tids acc).1).symptoms = acc.1.symptoms := by
  intro tids
  induction tids with
  | nil => intro acc; rfl
  | cons tid rest ih =>
    intro acc
    rw [dengueInner_cons, ih]
    exact connectSTOT_symptoms _ _ _

theorem dengueInner_ontologyTerms (nm : String) :
    ∀ (tids : List String) (acc : Graph × Nat),
    ((dengueInner nm tids acc).1).ontologyTerms = acc.1.ontologyTerms := by
  intro tids
  induction tids with
  | nil => intro acc; rfl
  | cons tid rest ih =>
    intro acc
    rw [dengueInner_cons, ih]
    exact connectSTOT_ontologyTerms _ _ _

theorem mem_dengueInner_of_mem (nm : String) :
    ∀ (tids : List String) (acc : Graph × Nat) (x : Edge),
    x ∈ acc.1.edges → x ∈ ((dengueInner nm tids acc).1).edges := by
  intro tids
  induction tids with
  | nil => intro acc x hx; exact hx
  | cons tid rest ih =>
    intro acc x hx
    rw [dengueInner_cons]
    exact ih _ x (mem_connectSTOT_of_mem _ _ _ x hx)

theorem dengueInner_edge_shape (nm : String) :
    ∀ (tids : List String) (acc : Graph × Nat) (x : Edge),
    x ∈ ((dengueInner nm tids acc).1).edges →
      x ∈ acc.1.edges ∨ ∃ s ∈ acc.1.symptoms, s.name = some nm ∧
        x.src = s.id ∧ x.rel = "HAS_ONTOLOGY_TERM" := by
  intro tids
  induction tids with
  | nil => intro acc x hx; exact Or.inl hx
  | cons tid rest ih =>
    intro acc x hx
    rw [dengueInner_cons] at hx
    rcases ih _ x hx with h | ⟨s, hsm, hnm, hsrc, hrel⟩
    · rcases connectSTOT_edge_shape acc.1 nm tid x h with h' | ⟨s, hsm, hnm, rfl⟩
      · exact Or.inl h'
      · exact Or.inr ⟨s, hsm, hnm, rfl, rfl⟩
    · rw [connectSTOT_symptoms] at hsm
      exact Or.inr ⟨s, hsm, hnm, hsrc, hrel⟩

theorem dengueInner_creates (nm : String) :
    ∀ (tids : List String) (acc : Graph × Nat) (tid : String) (s : Entity),
    tid ∈ tids → s ∈ acc.1.symptoms → s.name = some nm →
    (∃ t ∈ acc.1.ontologyTerms, t.id = tid) →
    ({ src := s.id, rel := "HAS_ONTOLOGY_TERM", tgt := tid } : Edge) ∈
      ((dengueInner nm tids acc).1).edges := by
  intro tids
  induction tids with
  | nil => intro acc tid s htid; cases htid
  | cons tid0 rest ih =>
    intro acc tid s htid hs hnm ht
    rw [dengueInner_cons]
    rcases List.mem_cons.mp htid with h | h
    · subst h
      rcases ht with ⟨t, htm, htid'⟩
      exact mem_dengueInner_of_mem nm rest _ _
        (connectSTOT_creates acc.1 nm tid s t hs hnm htm htid')
    · apply ih _ tid s h
      · rw [connectSTOT_symptoms]
        exact hs
      · exact hnm
      · rw [connectSTOT_ontologyTerms]
        exact ht

theorem dengueInner_id_of_no_terms (nm : String) :
    ∀ (tids : List String) (acc : Graph × Nat),
    (∀ tid ∈ tids, acc.1.ontologyTerms.filter (fun t => t.id == tid) = []) →
    dengueInner nm tids acc = acc := by
  intro tids
  induction tids with
  | nil => intro acc _; rfl
  | cons tid rest ih =>
    intro acc h
    rw [dengueInner_cons, connectSTOT_no_term acc.1 nm tid (h tid (List.mem_cons_self tid rest))]
    dsimp only
    rw [if_neg (by simp)]
    exact ih acc (fun q hq => h q (List.mem_cons_of_mem tid hq))

theorem dengueLoop_nil (acc : Graph × Nat) : dengueLoop [] acc = acc := rfl

theorem dengueLoop_cons (r : Option String) (rows : List (Option String))
    (acc : Graph × Nat) :
    dengueLoop (r :: rows) acc =
      dengueLoop rows
        (if pyFalsy r then acc
         else dengueInner (r.getD "") (dengueTermIdsFor (r.getD "")) acc) := rfl

theorem dengueLoop_symptoms : ∀ (rows : List (Option String)) (acc : Graph × Nat),
    ((dengueLoop rows acc).1).symptoms = acc.1.symptoms := by
  intro rows
  induction rows with
  | nil => intro acc; rfl
  | cons r rest ih =>
    intro acc
    rw [dengueLoop_cons, ih]
    split
    · rfl
    · exact dengueInner_symptoms _ _ _

theorem dengueLoop_ontologyTerms : ∀ (rows : List (Option String)) (acc : Graph × Nat),
    ((dengueLoop rows acc).1).ontologyTerms = acc.1.ontologyTerms := by
  intro rows
  induction rows with
  | nil => intro acc; rfl
  | cons r rest ih =>
    intro acc
    rw [dengueLoop_cons, ih]
    split
    · rfl
    · exact dengueInner_ontologyTerms _ _ _

theorem mem_dengueLoop_of_mem : ∀ (rows : List (Option String)) (acc : Graph × Nat)
    (x : Edge), x ∈ acc.1.edges → x ∈ ((dengueLoop rows acc).1).edges := by
  intro rows
  induction rows with
  | nil => intro acc x hx; exact hx
  | cons r rest ih =>
    intro acc x hx
    rw [dengueLoop_cons]
    apply ih
    split
    · exact hx
    · exact mem_dengueInner_of_mem _ _ _ x hx

theorem dengueLoop_edge_shape : ∀ (rows : List (Option String)) (acc : Graph × Nat)
    (x : Edge), x ∈ ((dengueLoop rows acc).1).edges →
      x ∈ acc.1.edges ∨ ∃ s ∈ acc.1.symptoms, pyFalsy s.name = false ∧
        x.src = s.id ∧ x.rel = "HAS_ONTOLOGY_TERM" := by
  intro rows
  induction rows with
  | nil => intro acc x hx; exact Or.inl hx
  | cons r rest ih =>
    intro acc x hx
    rw [dengueLoop_cons] at hx
    rcases ih _ x hx with h | ⟨s, hsm, hf, hsrc, hrel⟩
    · revert h
      cases hfr : pyFalsy r with
      | true =>
        rw [if_pos rfl]
        exact fun h => Or.inl h
      | false =>
        rw [if_neg (by simp)]
        intro h
        rcases dengueInner_edge_shape _ _ _ x h with h' | ⟨s, hsm, hnm, hsrc, hrel⟩
        · exact Or.inl h'
        · refine Or.inr ⟨s, hsm, ?_, hsrc, hrel⟩
          rw [hnm]
          cases r with
          | none => cases hfr
          | some nm0 => exact hfr
    · revert hsm
      split
      · exact fun hsm => Or.inr ⟨s, hsm, hf, hsrc, hrel⟩
      · rw [dengueInner_symptoms]
        exact fun hsm => Or.inr ⟨s, hsm, hf, hsrc, hrel⟩

theorem dengueLoop_creates : ∀ (rows : List (Option String)) (acc : Graph × Nat)
    (nm tid : String) (s : Entity), some nm ∈ rows → pyFalsy (some nm) = false →
    tid ∈ dengueTermIdsFor nm → s ∈ acc.1.symptoms → s.name = some nm →
    (∃ t ∈ acc.1.ontologyTerms, t.id = tid) →
    ({ src := s.id, rel := "HAS_ONTOLOGY_TERM", tgt := tid } : Edge) ∈
      ((dengueLoop rows acc).1).edges := by
  intro rows
  induction rows with
  | nil => intro acc nm tid s hrow; cases hrow
  | cons r rest ih =>
    intro acc nm tid s hrow hnf htid hs hnm ht
    rw [dengueLoop_cons]
    rcases List.mem_cons.mp hrow with h | h
    · subst h
      rw [if_neg (by simp [hnf])]
      apply mem_dengueLoop_of_mem
      exact dengueInner_creates nm _ _ tid s htid hs hnm ht
    · apply ih _ nm tid s h hnf htid
      · split
        · exact hs
        · rw [dengueInner_symptoms]
          exact hs
      · exact hnm
      · split
        · exact ht
        · rw [dengueInner_ontologyTerms]
          exact ht

theorem dengueLoop_id_of_no_terms : ∀ (rows : List (Option String)) (acc : Graph × Nat),
    (∀ nm, some nm ∈ rows → pyFalsy (some nm) = false →
      ∀ tid ∈ dengueTermIdsFor nm, acc.1.ontologyTerms.filter (fun t => t.id == tid) = []) →
    dengueLoop rows acc = acc := by
  intro rows
  induction rows with
  | nil => intro acc _; rfl
  | cons r rest ih =>
    intro acc h
    rw [dengueLoop_cons]
    cases hfr : pyFalsy r with
    | true =>
      rw [if_pos rfl]
      exact ih acc (fun nm hnm => h nm (List.mem_cons_of_mem r hnm))
    | false =>
      rw [if_neg (by simp)]
      cases r with
      | none => cases hfr
      | some nm0 =>
        simp only [Option.getD_some]
        rw [dengueInner_id_of_no_terms _ _ acc
          (h nm0 (List.mem_cons_self _ _) hfr)]
        exact ih acc (fun nm hnm => h nm (List.mem_cons_of_mem _ hnm))

theorem hasOntologyLink_of_edge (g : Graph) (s : Entity) (tid : String)
    (h : ({ src := s.id, rel := "HAS_ONTOLOGY_TERM", tgt := tid } : Edge) ∈ g.edges) :
    hasOntologyLink g s = true := by
  unfold hasOntologyLink
  apply List.any_eq_true.mpr
  exact ⟨_, h, by simp⟩

theorem unconnectedSymptomNames_mem (g : Graph) (nmOpt : Option String)
    (h : nmOpt ∈ unconnectedSymptomNames g) :
    ∃ s ∈ g.symptoms, hasOntologyLink g s = false ∧ s.name = nmOpt := by
  unfold unconnectedSymptomNames at h
  rcases List.mem_map.mp h with ⟨s, hs, rfl⟩
  have := List.mem_filter.mp hs
  exact ⟨s, this.1, by simpa using this.2, rfl⟩

theorem mem_unconnectedSymptomNames (g : Graph) (s : Entity)
    (hs : s ∈ g.symptoms) (h : hasOntologyLink g s = false) :
    s.name ∈ unconnectedSymptomNames g := by
  unfold unconnectedSymptomNames
  exact List.mem_map_of_mem _ (List.mem_filter.mpr ⟨hs, by simp [h]⟩)

theorem hasOntologyLink_mono (g g' : Graph) (s : Entity)
    (hsub : ∀ e ∈ g.edges, e ∈ g'.edges)
    (h : hasOntologyLink g s = true) : hasOntologyLink g' s = true := by
  unfold hasOntologyLink at h ⊢
  rcases List.any_eq_true.mp h with ⟨e, he, hcond⟩
  exact List.any_eq_true.mpr ⟨e, hsub e he, hcond⟩

/-- A second execution of the `connect-dengue-symptoms.py` run reports zero
connections made: every symptom still unconnected after the first run either
has a falsy name (and is skipped) or had all its term-id writes fail for lack
of the target term, which fails identically again. -/
theorem connectDengueRun_rerun_zero (g : Graph) :
    (connectDengueRun (connectDengueRun g).1).2 = 0 := by
  have hloop : dengueLoop (unconnectedSymptomNames (connectDengueRun g).1)
      ((connectDengueRun g).1, 0) = ((connectDengueRun g).1, 0) := by
    apply dengueLoop_id_of_no_terms
    intro nm hrow hnf tid htid
    by_contra hne
    rcases List.exists_mem_of_ne_nil _ hne with ⟨t, htf⟩
    have htm : t ∈ (connectDengueRun g).1.ontologyTerms := (List.mem_filter.mp htf).1
    have htid' : t.id = tid := eq_of_beq (List.mem_filter.mp htf).2
    rcases unconnectedSymptomNames_mem _ _ hrow with ⟨s, hsm, hnolink, hname⟩
    have hsg : s ∈ g.symptoms := by
      have := dengueLoop_symptoms (unconnectedSymptomNames g) (g, 0)
      unfold connectDengueRun at hsm
      rw [this] at hsm
      exact hsm
    have htg : t ∈ g.ontologyTerms := by
      have := dengueLoop_ontologyTerms (unconnectedSymptomNames g) (g, 0)
      unfold connectDengueRun at htm
      rw [this] at htm
      exact htm
    have hnolink0 : hasOntologyLink g s = false := by
      by_contra hcon
      have hlink : hasOntologyLink g s = true := by
        cases hval : hasOntologyLink g s with
        | true => rfl
        | false => exact absurd hval hcon
      have : hasOntologyLink (connectDengueRun g).1 s = true := by
        apply hasOntologyLink_mono g _ s _ hlink
        intro e he
        exact mem_dengueLoop_of_mem (unconnectedSymptomNames g) (g, 0) e he
      rw [this] at hnolink
      cases hnolink
    have hrow0 : some nm ∈ unconnectedSymptomNames g := by
      have := mem_unconnectedSymptomNames g s hsg hnolink0
      rw [hname] at this
      exact this
    have hedge : ({ src := s.id, rel := "HAS_ONTOLOGY_TERM", tgt := tid } : Edge) ∈
        ((connectDengueRun g).1).edges :=
      dengueLoop_creates (unconnectedSymptomNames g) (g, 0) nm tid s hrow0 hnf htid
        hsg hname ⟨t, htg, htid'⟩
    have := hasOntologyLink_of_edge _ s tid hedge
    rw [this] at hnolink
    cases hnolink
  show (dengueLoop (unconnectedSymptomNames (connectDengueRun g).1)
    ((connectDengueRun g).1, 0)).2 = 0
  rw [hloop]

/-- When a default term exists the matcher never returns the empty list: every
branch of `matchedTermsFor` is non-empty. -/
theorem matchedTermsFor_ne_nil (nm : String) (pool : List OntTerm) (d : OntTerm) :
    matchedTermsFor nm pool (some d) ≠ [] := by
  unfold matchedTermsFor
  dsimp only
  split
  · split
    · simp
    · next h =>
      intro hnil
      rw [hnil] at h
      exact h rfl
  · next h =>
    intro hnil
    rw [hnil] at h
    exact h rfl

/-! ## Concrete fixtures for the claims -/

/-- One symptom, one ontology term; no link yet. -/
def wG1 : Graph :=
  { symptoms := [{ id := "S1", name := some "Fever" }],
    ontologyTerms := [{ id := "T1", name := some "x" }],
    edges := [] }

def wT1 : OntTerm := { id := "T1", name := some "Pain" }

def wT2 : OntTerm := { id := "T2", name := some "Chest Tightness Sign" }

/-- An entity whose name substring-matches `wT1` but only token-matches `wT2`. -/
def wG2 : Graph :=
  { symptoms := [{ id := "S1", name := some "Chest Pain" }],
    ontologyTerms := [wT1, wT2],
    edges := [] }

/-- A curated-mapped symptom (`Shock`) whose curated term is absent while the
default fallback term is present. -/
def wGShock : Graph :=
  { symptoms := [{ id := "S1", name := some "Shock" }],
    ontologyTerms := [{ id := "IDODEN_0000049",
                        name := some "clinical manifestation of dengue" }],
    edges := [] }

/-- A symptom matching nothing heuristically, with the default term present. -/
def wG3 : Graph :=
  { symptoms := [{ id := "S1", name := some "Zzz Qqq" }],
    ontologyTerms := [{ id := "D1", name := some "clinical manifestation of dengue" }],
    edges := [] }

/-- `wG1` after the Fever-T1 link has been written (the already-linked state). -/
def wG4 : Graph :=
  { symptoms := [{ id := "S1", name := some "Fever" }],
    ontologyTerms := [{ id := "T1", name := some "x" }],
    edges := [{ src := "S1", rel := "HAS_ONTOLOGY_TERM", tgt := "T1" }] }

/-- The `Persistent Vomiting` scenario: both curated term ids present and a
further term whose name is fuzzily similar to the symptom name. -/
def wGPV : Graph :=
  { symptoms := [{ id := "S1", name := some "Persistent Vomiting" }],
    ontologyTerms :=
      [{ id := "IDODEN_0000049", name := some "clinical manifestation of dengue" },
       { id := "IDODEN_0003756", name := some "occurrence of severe dengue fever" },
       { id := "T_FUZZ", name := some "persistent vomiting syndrome" }],
    edges := [] }

def wCfNull : Entity := { id := "CF1", name := none }

def wRefClimate : Reference := { url := "u1", title := "Dengue and climate change" }

/-- A graph whose only symptom has an empty name. -/
def wG6 : Graph :=
  { symptoms := [{ id := "S0", name := some "" }],
    ontologyTerms := [{ id := "D1", name := some "clinical manifestation of dengue" }],
    edges := [] }

/-- A category step that raises (a malformed label makes the store reject the
query at execution time). -/
def failStep : CategoryStep := fun _ => .error "CypherSyntaxError: invalid label"

/-- A category step that writes one marker link and reports one connection. -/
def okLinkStep : CategoryStep := fun g =>
  .ok ({ g with edges :=
      insertEdge g.edges { src := "X", rel := "HAS_ONTOLOGY_TERM", tgt := "Y" } }, 1)

def wGEmpty : Graph := { symptoms := [], ontologyTerms := [], edges := [] }

/-! ## The claims -/

/-- C1: link writing is idempotent — writing the same (entity, candidate,
link type) twice leaves exactly one relationship of that type between them
(edge count 1, not 2), and running the full symptom linking pass twice over
an unchanged entity/term population produces an identical link set. -/
theorem claim_c1_link_write_idempotent (g gfull : Graph) (nm tid : String)
    (s : Entity) (t : OntTerm)
    (h1 : g.symptoms.filter (fun x => x.name == some nm) = [s])
    (h2 : g.ontologyTerms.filter (fun x => x.id == tid) = [t])
    (h3 : countEdge g { src := s.id, rel := "HAS_ONTOLOGY_TERM", tgt := tid } = 0) :
    countEdge ((connectSymptomToOntologyTerm
        ((connectSymptomToOntologyTerm g nm tid).1) nm tid).1)
      { src := s.id, rel := "HAS_ONTOLOGY_TERM", tgt := tid } = 1 ∧
    connectSymptomsRun (connectSymptomsRun gfull) = connectSymptomsRun gfull := by
  have htid : t.id = tid := by
    have hmem : t ∈ g.ontologyTerms.filter (fun x => x.id == tid) := by
      rw [h2]
      exact List.mem_singleton_self t
    exact eq_of_beq (List.mem_filter.mp hmem).2
  have hw1 : (connectSymptomToOntologyTerm g nm tid).1 =
      mergeEdge g { src := s.id, rel := "HAS_ONTOLOGY_TERM", tgt := tid } := by
    rw [connectSTOT_fst, h1, h2]
    simp only [List.flatMap_cons, List.flatMap_nil, List.map_cons, List.map_nil,
      List.append_nil]
    rw [htid]
    rfl
  have hw2 : (connectSymptomToOntologyTerm
      (mergeEdge g { src := s.id, rel := "HAS_ONTOLOGY_TERM", tgt := tid }) nm tid).1 =
      mergeEdge (mergeEdge g { src := s.id, rel := "HAS_ONTOLOGY_TERM", tgt := tid })
        { src := s.id, rel := "HAS_ONTOLOGY_TERM", tgt := tid } := by
    rw [connectSTOT_fst, mergeEdge_symptoms, mergeEdge_ontologyTerms, h1, h2]
    simp only [List.flatMap_cons, List.flatMap_nil, List.map_cons, List.map_nil,
      List.append_nil]
    rw [htid]
    rfl
  constructor
  · rw [hw1, hw2, mergeEdge_of_mem _ _ (mem_mergeEdge_self g _),
      countEdge_mergeEdge_new g _ ((countEdge_eq_zero_iff g _).mp h3), h3]
  · exact connectSymptomsRun_idem gfull

/-- C1 witness at a concrete store: one `Fever` symptom, one term, no prior
edge; writing the link twice leaves edge count 1. -/
theorem claim_c1_witness :
    countEdge ((connectSymptomToOntologyTerm
        ((connectSymptomToOntologyTerm wG1 "Fever" "T1").1) "Fever" "T1").1)
      { src := "S1", rel := "HAS_ONTOLOGY_TERM", tgt := "T1" } = 1 ∧
    connectSymptomsRun (connectSymptomsRun wG1) = connectSymptomsRun wG1 :=
  claim_c1_link_write_idempotent wG1 wG1 "Fever" "T1"
    { id := "S1", name := some "Fever" } { id := "T1", name := some "x" }
    (by decide) (by decide) (by decide)

/-- C2 counterexample: for the entity `chest pain` with no curated hit, the
candidate `Pain` matches at the substring tier, yet the candidate
`Chest Tightness Sign` — which fails the substring tier and matches only at
the later token tier — is still matched and linked.  The tiers do not
short-circuit across candidates. -/
theorem claim_c2_counterexample :
    directMatchesFor "chest pain" [wT1, wT2] = [] ∧
    substrTier "chest pain" "pain" = true ∧
    substrTier "chest pain" "chest tightness sign" = false ∧
    tokenTier "chest pain" "chest tightness sign" = true ∧
    matchedTermsFor "chest pain" [wT1, wT2] none = [wT1, wT2] ∧
    (connectSymptomsRun wG2).edges =
      [{ src := "S1", rel := "HAS_ONTOLOGY_TERM", tgt := "T1" },
       { src := "S1", rel := "HAS_ONTOLOGY_TERM", tgt := "T2" }] := by
  decide

/-- C2 (amended): short-circuiting holds between the curated stage, the
heuristic stage and the fallback — but within the heuristic stage each
candidate is evaluated through substring → token → fuzzy independently, so
candidates accepted at different tiers coexist for the same entity. -/
theorem claim_c2_tiers_per_candidate (nm : String) (pool : List OntTerm)
    (dflt : Option OntTerm) (t1 t2 : OntTerm)
    (hd : directMatchesFor nm pool = []) :
    (pool.filter (heuristicMatch nm) ≠ [] →
      matchedTermsFor nm pool dflt = pool.filter (heuristicMatch nm)) ∧
    (t1 ∈ pool → t2 ∈ pool → heuristicMatch nm t1 = true →
      heuristicMatch nm t2 = true →
      t1 ∈ matchedTermsFor nm pool dflt ∧ t2 ∈ matchedTermsFor nm pool dflt) := by
  have hheur : ∀ h : pool.filter (heuristicMatch nm) ≠ [],
      matchedTermsFor nm pool dflt = pool.filter (heuristicMatch nm) := by
    intro h
    unfold matchedTermsFor
    dsimp only
    rw [hd]
    rw [if_pos (show ([] : List OntTerm).isEmpty = true from rfl)]
    rw [if_neg (by simp [List.isEmpty_iff, h])]
  constructor
  · exact hheur
  · intro ht1 ht2 hm1 hm2
    have h1 : t1 ∈ pool.filter (heuristicMatch nm) := List.mem_filter.mpr ⟨ht1, hm1⟩
    have hne : pool.filter (heuristicMatch nm) ≠ [] := by
      intro hnil
      rw [hnil] at h1
      cases h1
    rw [hheur hne]
    exact ⟨h1, List.mem_filter.mpr ⟨ht2, hm2⟩⟩

/-- C2 witness: the amended statement at the counterexample inputs. -/
theorem claim_c2_witness :
    matchedTermsFor "chest pain" [wT1, wT2] none =
      [wT1, wT2].filter (heuristicMatch "chest pain") ∧
    wT1 ∈ matchedTermsFor "chest pain" [wT1, wT2] none ∧
    wT2 ∈ matchedTermsFor "chest pain" [wT1, wT2] none := by
  have h := claim_c2_tiers_per_candidate "chest pain" [wT1, wT2] none wT1 wT2 (by decide)
  refine ⟨h.1 (by decide), ?_⟩
  have h2 := h.2 (by decide) (by decide) (by decide) (by decide)
  exact h2

/-- C3 counterexample: in `connect-dengue-symptoms.py`, the curated-mapped
symptom `Shock` whose curated term `IDODEN_0003764` is absent ends the run
with no outgoing link even though its name is non-empty and the default
fallback candidate `IDODEN_0000049` is present in the pool. -/
theorem claim_c3_counterexample :
    pyFalsy (some "Shock") = false ∧
    defaultTermOf wGShock.ontologyTerms =
      some { id := "IDODEN_0000049", name := some "clinical manifestation of dengue" } ∧
    (∃ t ∈ wGShock.ontologyTerms, t.id = default_term_id) ∧
    (connectDengueRun wGShock).1.edges = [] := by
  decide

/-- C3 (amended): in the heuristic symptom pass of
`connect-nodes-to-ontology.py`, every symptom with a non-falsy name ends the
run with at least one outgoing link whenever the default term resolves; the
guarantee does not extend to the curated-mapping script, where an entity
whose curated targets are all absent is left unlinked. -/
theorem claim_c3_fallback_guarantee (g : Graph) (s : Entity) (nm : String)
    (d : OntTerm) (hs : s ∈ g.symptoms) (hnm : s.name = some nm)
    (hne : pyFalsy s.name = false)
    (hd : defaultTermOf g.ontologyTerms = some d) :
    ∃ e ∈ (connectSymptomsRun g).edges,
      e.src = s.id ∧ e.rel = "HAS_ONTOLOGY_TERM" := by
  have hmatched : matchedTermsFor (pyLower nm) (symptomPool g.ontologyTerms)
      (defaultTermOf g.ontologyTerms) ≠ [] := by
    rw [hd]
    exact matchedTermsFor_ne_nil _ _ _
  rcases List.exists_mem_of_ne_nil _ hmatched with ⟨t, htm⟩
  have hp : (s.id, t.id) ∈ symptomLinkPairs g := by
    unfold symptomLinkPairs
    apply List.mem_flatMap.mpr
    refine ⟨s, hs, ?_⟩
    rw [if_neg (by simp [hne])]
    dsimp only
    rw [hnm]
    simp only [Option.getD_some]
    exact List.mem_map_of_mem _ htm
  have hterm : ∃ u ∈ g.ontologyTerms, u.id = (s.id, t.id).2 := by
    rcases matchedTermsFor_mem _ _ _ t htm with h | h
    · exact ⟨t, symptomPool_subset _ t h, rfl⟩
    · have hdt : d = t := Option.some.inj (hd.symm.trans h)
      exact ⟨t, hdt ▸ defaultTermOf_mem _ d hd, rfl⟩
  refine ⟨_, linkLoop_creates _ _ (s.id, t.id) hp ⟨s, hs, rfl⟩ hterm, rfl, rfl⟩

/-- C3 witness: a symptom matching nothing heuristically is still linked via
the default term. -/
theorem claim_c3_witness :
    ∃ e ∈ (connectSymptomsRun wG3).edges,
      e.src = "S1" ∧ e.rel = "HAS_ONTOLOGY_TERM" :=
  claim_c3_fallback_guarantee wG3 { id := "S1", name := some "Zzz Qqq" } "Zzz Qqq"
    { id := "D1", name := some "clinical manifestation of dengue" }
    (by decide) rfl (by decide) (by decide)

/-- C4 counterexample: calling the link writer again for an already-linked
(entity, candidate) pair returns `True` — which the main loop counts as 1,
not 0 — because the query reports the matched pattern, not the number of
newly created relationships. -/
theorem claim_c4_counterexample :
    (connectSymptomToOntologyTerm wG4 "Fever" "T1").2 = true ∧
    (if (connectSymptomToOntologyTerm wG4 "Fever" "T1").2 then 1 else 0) = 1 ∧
    (connectSymptomToOntologyTerm wG4 "Fever" "T1").1 = wG4 := by
  decide

/-- C4 (amended): the link writer returns whether the MATCH pattern produced
rows (the relationships that now exist): a repeat call over an already-linked
pair succeeds with `True` (counted as 1 by `main`, not 0), raises nothing and
creates no new edge; a repeat of the whole run still reports 0 connections
made because already-linked symptoms are excluded upstream by the
unconnected-symptoms query. -/
theorem claim_c4_write_returns_match (g g2 : Graph) (nm tid : String)
    (s : Entity) (t : OntTerm)
    (h1 : g.symptoms.filter (fun x => x.name == some nm) = [s])
    (h2 : g.ontologyTerms.filter (fun x => x.id == tid) = [t])
    (h3 : { src := s.id, rel := "HAS_ONTOLOGY_TERM", tgt := tid } ∈ g.edges) :
    connectSymptomToOntologyTerm g nm tid = (g, true) ∧
    (connectDengueRun (connectDengueRun g2).1).2 = 0 := by
  have htid : t.id = tid := by
    have hmem : t ∈ g.ontologyTerms.filter (fun x => x.id == tid) := by
      rw [h2]
      exact List.mem_singleton_self t
    exact eq_of_beq (List.mem_filter.mp hmem).2
  constructor
  · have hfst : (connectSymptomToOntologyTerm g nm tid).1 = g := by
      rw [connectSTOT_fst, h1, h2]
      simp only [List.flatMap_cons, List.flatMap_nil, List.map_cons, List.map_nil,
        List.append_nil]
      rw [htid]
      exact mergeAll_of_all_mem _ g
        (fun e he => by rw [List.mem_singleton.mp he]; exact h3)
    have hsnd : (connectSymptomToOntologyTerm g nm tid).2 = true := by
      unfold connectSymptomToOntologyTerm
      dsimp only
      rw [h1, h2]
      rfl
    calc connectSymptomToOntologyTerm g nm tid
        = ((connectSymptomToOntologyTerm g nm tid).1,
           (connectSymptomToOntologyTerm g nm tid).2) := rfl
      _ = (g, true) := by rw [hfst, hsnd]
  · exact connectDengueRun_rerun_zero g2

/-- C4 witness: the already-linked store `wG4`. -/
theorem claim_c4_witness :
    connectSymptomToOntologyTerm wG4 "Fever" "T1" = (wG4, true) ∧
    (connectDengueRun (connectDengueRun wG4).1).2 = 0 :=
  claim_c4_write_returns_match wG4 wG4 "Fever" "T1"
    { id := "S1", name := some "Fever" } { id := "T1", name := some "x" }
    (by decide) (by decide) (by decide)

/-- C5 counterexample: with the first category raising a query error, the
orchestrator returns exit code 1, produces no summary, and the five healthy
categories that follow are never executed (their marker link is absent) —
the run does not continue past the failure. -/
theorem claim_c5_counterexample :
    connectNodesMain failStep okLinkStep okLinkStep okLinkStep okLinkStep
      okLinkStep wGEmpty = (1, wGEmpty, none) ∧
    ({ src := "X", rel := "HAS_ONTOLOGY_TERM", tgt := "Y" } : Edge) ∉
      wGEmpty.edges := by
  exact ⟨rfl, by decide⟩

/-- C5 (amended): an exception in any category is caught by the single
orchestrator-level try/except: the process exits with code 1 instead of
crashing and writes of completed categories persist, but all remaining
categories are skipped (the result does not depend on them at all) and no
summary is emitted. -/
theorem claim_c5_single_try_catch (s1 s2 s3 s4 s5 s6 : CategoryStep)
    (g g1 : Graph) (c1 : Nat) (msg : String)
    (h1 : s1 g = .ok (g1, c1)) (h2 : s2 g1 = .error msg) :
    connectNodesMain s1 s2 s3 s4 s5 s6 g = (1, g1, none) := by
  unfold connectNodesMain
  rw [h1]
  dsimp only
  rw [h2]

/-- C5 witness: first category succeeds and writes its marker link, second
category fails; exit code 1, the first category's link persists, no summary. -/
theorem claim_c5_witness :
    connectNodesMain okLinkStep failStep okLinkStep okLinkStep okLinkStep
      okLinkStep wGEmpty =
      (1, { symptoms := [], ontologyTerms := [],
            edges := [{ src := "X", rel := "HAS_ONTOLOGY_TERM", tgt := "Y" }] },
       none) :=
  claim_c5_single_try_catch okLinkStep failStep okLinkStep okLinkStep okLinkStep
    okLinkStep wGEmpty
    { symptoms := [], ontologyTerms := [],
      edges := [{ src := "X", rel := "HAS_ONTOLOGY_TERM", tgt := "Y" }] }
    1 "CypherSyntaxError: invalid label" rfl rfl

/-- C6 counterexample: the label-wide reference linker for climate factors
links every `ClimateFactor` node regardless of its name — a node with a null
name does appear as the source of a `HAS_REFERENCE` link. -/
theorem claim_c6_counterexample :
    wCfNull.name = none ∧
    connectClimateFactors [wCfNull] [wRefClimate] [] =
      [{ src := "CF1", rel := "HAS_REFERENCE", tgt := "u1" }] := by
  decide

/-- C6 (amended): the name-matching linkers skip entities with null/empty
names entirely — such an entity is never the source of a link written by the
symptom pass of `connect-nodes-to-ontology.py` or by
`connect-dengue-symptoms.py` — and the coverage computation counts it in the
total while excluding it from the linked set; the label-wide reference
linkers of `connect-non-clinical-entities.py`, however, ignore names. -/
theorem claim_c6_unmatchable_skip (g : Graph) (s : Entity) (nodes : List Entity)
    (edges : List Edge) (hs : s ∈ g.symptoms) (hf : pyFalsy s.name = true)
    (hid : ∀ s' ∈ g.symptoms, s'.id = s.id → pyFalsy s'.name = true)
    (hpre : ∀ e ∈ g.edges, e.src ≠ s.id)
    (hn : s ∈ nodes)
    (hnoref : ∀ e ∈ edges, ¬(e.src = s.id ∧ e.rel = "HAS_REFERENCE")) :
    (∀ e ∈ (connectSymptomsRun g).edges, e.src ≠ s.id) ∧
    (∀ e ∈ ((connectDengueRun g).1).edges, e.src ≠ s.id) ∧
    s ∉ nodesWithRefs nodes edges ∧
    (nodesWithRefs nodes edges).length < nodes.length := by
  have hnot : s ∉ nodesWithRefs nodes edges := by
    intro hmem
    rcases List.any_eq_true.mp (List.mem_filter.mp hmem).2 with ⟨e, he, hcond⟩
    have hcond' : e.src = s.id ∧ e.rel = "HAS_REFERENCE" := by
      simpa using hcond
    exact hnoref e he hcond'
  refine ⟨?_, ?_, hnot, ?_⟩
  · intro e he
    rcases linkLoop_edge_shape _ _ e he with h | ⟨p, hp, rfl⟩
    · exact hpre e h
    · show p.1 ≠ s.id
      intro hsrc
      rcases symptomLinkPairs_mem g p hp with ⟨s', hs', hf', hid', _⟩
      have hss : s'.id = s.id := by rw [hid', hsrc]
      have htrue := hid s' hs' hss
      rw [htrue] at hf'
      cases hf'
  · intro e he
    rcases dengueLoop_edge_shape _ _ e he with h | ⟨s', hs', hf', hsrc, _⟩
    · exact hpre e h
    · intro heq
      have hss : s'.id = s.id := by rw [← hsrc, heq]
      have htrue := hid s' hs' hss
      rw [htrue] at hf'
      cases hf'
  · apply Nat.lt_of_le_of_ne (List.length_filter_le _ _)
    intro heq
    have heqlist : nodesWithRefs nodes edges = nodes :=
      List.Sublist.eq_of_length (List.filter_sublist _) heq
    exact hnot (by rw [heqlist]; exact hn)

/-- C6 witness: a symptom with an empty name in a store with a default term
available: the runs create no link from it, and the coverage computation
counts it in the total only. -/
theorem claim_c6_witness :
    (∀ e ∈ (connectSymptomsRun wG6).edges, e.src ≠ "S0") ∧
    (∀ e ∈ ((connectDengueRun wG6).1).edges, e.src ≠ "S0") ∧
    ({ id := "S0", name := some "" } : Entity) ∉
      nodesWithRefs [{ id := "S0", name := some "" }] [] ∧
    (nodesWithRefs [{ id := "S0", name := some "" }] []).length <
      ([{ id := "S0", name := some "" }] : List Entity).length :=
  claim_c6_unmatchable_skip wG6 { id := "S0", name := some "" }
    [{ id := "S0", name := some "" }] []
    (by decide) (by decide) (by decide) (by decide) (by decide) (by decide)

/-- C7: the coverage percentage is `linked / total * 100` with the
`total = 0` case defined as exactly 0 (no division fault), and
`total = 10, linked = 7` gives exactly 70; the same formula is used for the
overall row and every per-category row. -/
theorem claim_c7_coverage_arithmetic (t w : Nat) (ht : 0 < t) :
    coveragePct 0 w = 0 ∧ coveragePct 10 7 = 70 ∧
    coveragePct t w = (w : ℚ) / (t : ℚ) * 100 := by
  refine ⟨?_, ?_, ?_⟩
  · simp [coveragePct]
  · norm_num [coveragePct]
  · simp [coveragePct, ht]

/-- C7 witness at `total = 10, linked = 7`. -/
theorem claim_c7_witness :
    coveragePct 0 7 = 0 ∧ coveragePct 10 7 = 70 ∧
    coveragePct 10 7 = ((7 : Nat) : ℚ) / ((10 : Nat) : ℚ) * 100 :=
  claim_c7_coverage_arithmetic 10 7 (by decide)

/-- Modelled from the spec wording of the token-overlap tier, for comparison
with the code's `tokenTier`: tokens of length ≤ 3 are excluded as noise and a
candidate matches exactly when some remaining token appears verbatim among
the candidate's tokens. -/
def specTokenMatch (name cand : String) : Bool :=
  ((pySplit name).filter (fun tok => tok.length > 3)).any
    (fun kw => (pySplit cand).contains kw)

/-- C8 counterexample: the code's token tier has no length filter — the
3-character token `dhf` alone makes `dhf rash` match the entity `dhf sign`
(and the candidate is linked), while the spec's filtered predicate rejects
the pair. -/
theorem claim_c8_counterexample :
    tokenTier "dhf sign" "dhf rash" = true ∧
    specTokenMatch "dhf sign" "dhf rash" = false ∧
    substrTier "dhf sign" "dhf rash" = false ∧
    ({ id := "T3", name := some "dhf rash" } : OntTerm) ∈
      matchedTermsFor "dhf sign" [{ id := "T3", name := some "dhf rash" }] none := by
  decide

/-- C8 (amended): in the token-overlap tier the normalized name is split into
whitespace-delimited tokens and a candidate matches exactly when ANY token —
with no length-based exclusion — appears verbatim among the candidate's
tokens; a candidate with a non-empty name that fails the substring tier but
passes the token tier is accepted by the per-candidate heuristic. -/
theorem claim_c8_token_overlap (s c : String) (t : OntTerm) (nm0 : String)
    (ht : t.name = some nm0) (hne : nm0.data ≠ [])
    (hsub : substrTier s (pyLower nm0) = false)
    (htok : tokenTier s (pyLower nm0) = true) :
    (tokenTier s c = true ↔ ∃ kw, kw ∈ pySplit s ∧ kw ∈ pySplit c) ∧
    heuristicMatch s t = true := by
  constructor
  · unfold tokenTier
    rw [List.any_eq_true]
    constructor
    · rintro ⟨kw, hmem, hcont⟩
      exact ⟨kw, hmem, by simpa using hcont⟩
    · rintro ⟨kw, hmem, hmem2⟩
      exact ⟨kw, hmem, by simpa using hmem2⟩
  · unfold heuristicMatch
    rw [ht]
    dsimp only
    rw [if_neg (by simp [List.isEmpty_iff, hne])]
    simp [hsub, htok]

/-- C8 witness: the amended tier at the counterexample inputs. -/
theorem claim_c8_witness :
    (tokenTier "dhf sign" "dhf rash" = true ↔
      ∃ kw, kw ∈ pySplit "dhf sign" ∧ kw ∈ pySplit "dhf rash") ∧
    heuristicMatch "dhf sign" { id := "T3", name := some "dhf rash" } = true :=
  claim_c8_token_overlap "dhf sign" "dhf rash"
    { id := "T3", name := some "dhf rash" } "dhf rash"
    rfl (by decide) (by decide) (by decide)

/-- C9: curated direct mappings take precedence — whenever the curated tier
produces at least one match, the matcher returns exactly the curated matches
and the later heuristic tiers (including fuzzy similarity) are never
consulted; and in the `Persistent Vomiting` scenario with the curated mapping
present (and a fuzzily similar extra term in the pool), the run links exactly
the two curated ontology term ids `IDODEN_0000049` and `IDODEN_0003756`,
exactly 2 edges, with no fuzzy-tier edge added. -/
theorem claim_c9_curated_precedence (nm : String) (pool : List OntTerm)
    (dflt : Option OntTerm) (h : directMatchesFor nm pool ≠ []) :
    matchedTermsFor nm pool dflt = directMatchesFor nm pool ∧
    (connectDengueRun wGPV).1.edges =
      [{ src := "S1", rel := "HAS_ONTOLOGY_TERM", tgt := "IDODEN_0000049" },
       { src := "S1", rel := "HAS_ONTOLOGY_TERM", tgt := "IDODEN_0003756" }] ∧
    (connectDengueRun wGPV).2 = 2 := by
  refine ⟨?_, by decide, by decide⟩
  unfold matchedTermsFor
  dsimp only
  rw [if_neg (by simp [List.isEmpty_iff, h])]

/-- C9 witness: a pool with a curated hit for `persistent vomiting`. -/
theorem claim_c9_witness :
    matchedTermsFor "persistent vomiting"
        [{ id := "TV", name := some "vomiting of dengue" }] none =
      directMatchesFor "persistent vomiting"
        [{ id := "TV", name := some "vomiting of dengue" }] ∧
    (connectDengueRun wGPV).1.edges =
      [{ src := "S1", rel := "HAS_ONTOLOGY_TERM", tgt := "IDODEN_0000049" },
       { src := "S1", rel := "HAS_ONTOLOGY_TERM", tgt := "IDODEN_0003756" }] ∧
    (connectDengueRun wGPV).2 = 2 :=
  claim_c9_curated_precedence "persistent vomiting"
    [{ id := "TV", name := some "vomiting of dengue" }] none (by decide)

/-- C10: `similarity_score` is total and well-bounded — for every pair of
inputs, including `None` for either or both arguments, it returns a value in
[0, 1] without raising, treats a `None` input as the empty string, and
compares case-insensitively (inputs equal up to lowercasing give the same
score). -/
theorem claim_c10_similarity_total (a b : Option String) (x y : String)
    (hcase : pyLower x = pyLower y) :
    0 ≤ similarity_score a b ∧ similarity_score a b ≤ 1 ∧
    similarity_score none b = similarity_score (some "") b ∧
    similarity_score a none = similarity_score a (some "") ∧
    similarity_score (some x) b = similarity_score (some y) b := by
  have hempty : pyLower "" = "" := by decide
  refine ⟨?_, ?_, ?_, ?_, ?_⟩
  · exact ratioScore_nonneg _ _
  · exact ratioScore_le_one _ _
  · unfold similarity_score
    dsimp only
    rw [hempty]
  · unfold similarity_score
    dsimp only
    rw [hempty]
  · unfold similarity_score
    dsimp only
    rw [hcase]

/-- C10 witness: a `None` argument and case-insensitivity at `AB` / `ab`. -/
theorem claim_c10_witness :
    0 ≤ similarity_score (some "Fever") none ∧
    similarity_score (some "Fever") none ≤ 1 ∧
    similarity_score none none = similarity_score (some "") none ∧
    similarity_score (some "Fever") none = similarity_score (some "Fever") (some "") ∧
    similarity_score (some "AB") none = similarity_score (some "ab") none :=
  claim_c10_similarity_total (some "Fever") none "AB" "ab" (by decide)

end DengueKG
